import Mathlib

/-!
# Verification of the Study Session subsystem (Uni-SpacesO)

Shallow embedding of the Study Session core of the repository:
presence tracking, polling chat, the AI schedule planner pipeline
(`study_session/views.py`) and the associated data model
(`study_session/models.py`, the `Friendship` edge used by the friend
endpoints).

Conventions:
* Times are rationals, measured in seconds (the Python code compares
  `timedelta.total_seconds()` against `60` and uses a 5 minute = 300 s
  freshness window).
* JSON numbers are rationals (decimal literals are exact in `ℚ`; the
  planner only passes numbers through and compares them, it never does
  arithmetic on them).
* Strings are modelled as `List Char`; `String` literals enter through
  `String.data`.
* Fallible endpoints return `Option`/pairs: `none` models the HTTP error
  response (400/404/500), and the second component is the table state
  after the request.
-/

namespace StudySession

/-- An exact decimal number `mant / 10 ^ exp`, the value of a JSON
number literal.  Kept unnormalised so that all comparisons evaluate by
machine arithmetic on `Int`/`Nat`. -/
structure Dec where
  mant : Int
  exp : Nat
  deriving DecidableEq

namespace Dec

/-- The rational value of a decimal. -/
def toRat (d : Dec) : ℚ := (d.mant : ℚ) / 10 ^ d.exp

/-- Negation. -/
def neg (d : Dec) : Dec := ⟨-d.mant, d.exp⟩

/-- Order on decimals by cross multiplication. -/
def le (a b : Dec) : Bool := a.mant * 10 ^ b.exp ≤ b.mant * 10 ^ a.exp

/-- Strict order on decimals by cross multiplication. -/
def lt (a b : Dec) : Bool := a.mant * 10 ^ b.exp < b.mant * 10 ^ a.exp

end Dec

/-- JSON values, as produced by `json.loads` on the planner response.
Object fields keep their textual order; `pyLookup` implements Python's
last-key-wins access. -/
inductive Json where
  | null : Json
  | bool (b : Bool) : Json
  | num (d : Dec) : Json
  | str (s : List Char) : Json
  | arr (items : List Json) : Json
  | obj (fields : List (List Char × Json)) : Json

/-- JSON insignificant whitespace (space, tab, LF, CR). -/
def isWs (c : Char) : Bool :=
  c = ' ' || c = '\n' || c = '\t' || c = '\r'

/-- Drop leading and trailing JSON whitespace. -/
def trimWs (l : List Char) : List Char :=
  ((l.dropWhile isWs).reverse.dropWhile isWs).reverse

/-- The bare triple-backtick fence marker. -/
def fenceMark : List Char := "```".data

/-- The `json`-tagged fence marker. -/
def fenceMarkJson : List Char := "```json".data

/-- The markdown fence clean-up of `navigator_command`
(`views.py` lines 162–168): drop a leading ```` ```json ```` (7 chars)
or ```` ``` ```` (3 chars), then drop a trailing ```` ``` ````. -/
def stripFences (text : List Char) : List Char :=
  let t1 :=
    if fenceMarkJson.isPrefixOf text then text.drop 7
    else if fenceMark.isPrefixOf text then text.drop 3
    else text
  if fenceMark.isSuffixOf t1 then t1.take (t1.length - 3) else t1

example : stripFences "```json\n[]\n```".data = "\n[]\n".data := by decide
example : trimWs "\n[]\n".data = "[]".data := by decide
example : stripFences "[]```".data = "[]".data := by decide

/-! ## A JSON parser

Model of `json.loads` on the planner response.  The parser covers the
JSON fragment the planner contract uses: null / booleans / decimal
numbers (with optional fraction and exponent) / strings with the
single-character escapes / arrays / objects, with insignificant
whitespace everywhere and leading/trailing whitespace tolerated
(`trimWs` before parsing).  Not modelled: `\uXXXX` escapes and the
rejection of leading zeros — no claim depends on either. -/

/-- Decimal digit test. -/
def isDigit (c : Char) : Bool := c.isDigit

/-- Numeric value of a run of decimal digits. -/
def digitsToNat (ds : List Char) : Nat :=
  ds.foldl (fun n c => 10 * n + (c.toNat - '0'.toNat)) 0

/-- The single-character escape table of JSON strings, as
(escape letter, decoded character) pairs. -/
def escTable : List (Char × Char) :=
  [('"', '"'), ('\\', '\\'), ('/', '/'), ('n', '\n'), ('t', '\t'),
   ('r', '\r'), ('b', Char.ofNat 8), ('f', Char.ofNat 12)]

/-- Decode a single-character string escape. -/
def escChar (e : Char) : Option Char :=
  (escTable.find? fun p => p.1 = e).map fun p => p.2

/-- Parse the body of a string literal (the opening quote already
consumed); returns the decoded characters and the rest of the input. -/
def parseStrBody : List Char → Option (List Char × List Char)
  | [] => none
  | '"' :: rest => some ([], rest)
  | '\\' :: e :: rest => do
    let c ← escChar e
    let (s, r) ← parseStrBody rest
    some (c :: s, r)
  | c :: rest => do
    let (s, r) ← parseStrBody (c :: rest).tail
    some (c :: s, r)

/-- Attach an optional exponent part to an already parsed magnitude. -/
def parseExpTail (d : Dec) (l : List Char) : Option (Dec × List Char) :=
  let withDigits (neg : Bool) (r : List Char) : Option (Dec × List Char) :=
    let ds := r.takeWhile isDigit
    if ds.isEmpty then none
    else
      let e := digitsToNat ds
      some (if neg then ⟨d.mant, d.exp + e⟩ else ⟨d.mant * 10 ^ e, d.exp⟩,
        r.dropWhile isDigit)
  match l with
  | 'e' :: '+' :: r => withDigits false r
  | 'e' :: '-' :: r => withDigits true r
  | 'e' :: r => withDigits false r
  | 'E' :: '+' :: r => withDigits false r
  | 'E' :: '-' :: r => withDigits true r
  | 'E' :: r => withDigits false r
  | _ => some (d, l)

/-- Parse an unsigned decimal number (integer part, optional fraction,
optional exponent). -/
def parseMagnitude (l : List Char) : Option (Dec × List Char) :=
  let ds := l.takeWhile isDigit
  if ds.isEmpty then none
  else
    let ip := digitsToNat ds
    let rest := l.dropWhile isDigit
    match rest with
    | '.' :: r2 =>
      let fs := r2.takeWhile isDigit
      if fs.isEmpty then none
      else
        parseExpTail ⟨ip * 10 ^ fs.length + digitsToNat fs, fs.length⟩
          (r2.dropWhile isDigit)
    | _ => parseExpTail ⟨ip, 0⟩ rest

/-- Parse a (possibly negative) JSON number. -/
def parseNum (l : List Char) : Option (Json × List Char) :=
  match l with
  | '-' :: r => (parseMagnitude r).map fun p => (Json.num p.1.neg, p.2)
  | _ => (parseMagnitude l).map fun p => (Json.num p.1, p.2)

/-- Parsing modes (value / array items / object fields), used to keep
the recursion on the fuel argument in a single function. -/
inductive PMode where
  | val : PMode
  | items : PMode
  | fields : PMode

/-- Result of a parse in a given mode. -/
inductive PRes where
  | val (v : Json) : PRes
  | items (l : List Json) : PRes
  | fields (l : List (List Char × Json)) : PRes

/-- The recursive JSON parser.  In mode `val` the input must start with
a value (no leading whitespace); mode `items` parses the items of a
non-empty array up to the closing bracket; mode `fields` parses the
fields of a non-empty object up to the closing brace. -/
def parseF : PMode → Nat → List Char → Option (PRes × List Char)
  | _, 0, _ => none
  | .val, f + 1, l =>
    match l with
    | [] => none
    | c :: rest =>
      if c = 'n' then
        if "ull".data.isPrefixOf rest then some (.val .null, rest.drop 3)
        else none
      else if c = 't' then
        if "rue".data.isPrefixOf rest then some (.val (.bool true), rest.drop 3)
        else none
      else if c = 'f' then
        if "alse".data.isPrefixOf rest then some (.val (.bool false), rest.drop 4)
        else none
      else if c = '"' then
        (parseStrBody rest).map fun p => (.val (.str p.1), p.2)
      else if c = '[' then
        match rest.dropWhile isWs with
        | ']' :: r2 => some (.val (.arr []), r2)
        | r2 =>
          (parseF .items f r2).bind fun p =>
            match p.1 with
            | .items vs => some (.val (.arr vs), p.2)
            | _ => none
      else if c = '{' then
        match rest.dropWhile isWs with
        | '}' :: r2 => some (.val (.obj []), r2)
        | r2 =>
          (parseF .fields f r2).bind fun p =>
            match p.1 with
            | .fields kvs => some (.val (.obj kvs), p.2)
            | _ => none
      else (parseNum l).map fun p => (.val p.1, p.2)
  | .items, f + 1, l =>
    (parseF .val f l).bind fun p =>
      match p.1 with
      | .val v =>
        match p.2.dropWhile isWs with
        | ',' :: r2 =>
          (parseF .items f (r2.dropWhile isWs)).bind fun q =>
            match q.1 with
            | .items vs => some (.items (v :: vs), q.2)
            | _ => none
        | ']' :: r2 => some (.items [v], r2)
        | _ => none
      | _ => none
  | .fields, f + 1, l =>
    match l with
    | '"' :: r => do
      let (k, r1) ← parseStrBody r
      match r1.dropWhile isWs with
      | ':' :: r2 =>
        (parseF .val f (r2.dropWhile isWs)).bind fun p =>
          match p.1 with
          | .val v =>
            match p.2.dropWhile isWs with
            | ',' :: r3 =>
              (parseF .fields f (r3.dropWhile isWs)).bind fun q =>
                match q.1 with
                | .fields kvs => some (.fields ((k, v) :: kvs), q.2)
                | _ => none
            | '}' :: r3 => some (.fields [(k, v)], r3)
            | _ => none
          | _ => none
      | _ => none
    | _ => none

/-- `json.loads`: trim surrounding whitespace, parse one value, and
require that nothing but whitespace follows it. -/
def jsonParse (s : List Char) : Option Json :=
  let t := trimWs s
  match parseF .val (t.length + 1) t with
  | some (.val v, rest) => if rest.dropWhile isWs = [] then some v else none
  | _ => none

example : jsonParse "[]".data = some (Json.arr []) := by rfl
example : jsonParse " null ".data = some Json.null := by rfl
example : jsonParse "[1, 2]".data
    = some (Json.arr [Json.num ⟨1, 0⟩, Json.num ⟨2, 0⟩]) := by rfl
example : jsonParse "\x7b\"a\": 9.5\x7d".data
    = some (Json.obj [("a".data, Json.num ⟨95, 1⟩)]) := by rfl
example : jsonParse "-2.5e-1".data = some (Json.num ⟨-25, 2⟩) := by rfl
example : jsonParse "[]```".data = none := by rfl
example : jsonParse "[1,".data = none := by rfl
example :
    jsonParse "[\x7b\"title\":\"T\",\"dayIndex\":4,\"startHour\":14,\"duration\":2,\"type\":\"fixed\"\x7d]".data
    = some (Json.arr [Json.obj
        [("title".data, Json.str "T".data), ("dayIndex".data, Json.num ⟨4, 0⟩),
         ("startHour".data, Json.num ⟨14, 0⟩), ("duration".data, Json.num ⟨2, 0⟩),
         ("type".data, Json.str "fixed".data)]]) := by rfl

/-! ## The schedule store and the planner pipeline

`StudyBlock` rows (`models.py` lines 35–45) and the persistence half of
`navigator_command` (`views.py` lines 160–200): fence clean-up, JSON
parse, the per-item field extraction loop, and the final bulk insert.
The external model call itself is the collaborator; the pipeline is
modelled from its response text onward.  A `none` outcome models the
caught exception turned into the HTTP 500 JSON error (lines 202–204). -/

/-- A `StudyBlock` row.  Field values are stored as the `Json` values
the planner passed through (the code performs no validation or
coercion); `id` is the storage-assigned primary key (the planner model
leaves it `0`, key assignment belongs to the persistence layer). -/
structure StudyBlockRow where
  id : Nat
  user : Nat
  title : Json
  day_index : Option Json
  date : Option Json
  start_date : Option Json
  end_date : Option Json
  start_hour : Json
  duration : Json
  block_type : Json

/-- Python `dict` access `d[k]` / `d.get(k)` on parsed JSON object
fields: with duplicate keys, `json.loads` keeps the last occurrence. -/
def pyLookup (fields : List (List Char × Json)) (key : List Char) : Option Json :=
  (fields.reverse.find? fun kv => kv.1 = key).map fun kv => kv.2

/-- `item.get(k)` normalised the way the Python code consumes it: a key
that is absent and a key whose value is JSON `null` both give Python
`None`. -/
def pyGetOpt (fields : List (List Char × Json)) (key : List Char) : Option Json :=
  match pyLookup fields key with
  | some Json.null => none
  | r => r

/-- Python truthiness of a parsed JSON value (`if item.get('date'):`). -/
def truthy : Json → Bool
  | Json.null => false
  | Json.bool b => b
  | Json.num d => d.mant ≠ 0
  | Json.str s => !s.isEmpty
  | Json.arr l => !l.isEmpty
  | Json.obj l => !l.isEmpty

/-- One iteration of the `for item in schedule` loop (`views.py` lines
174–197): `none` models the exception a non-dict item or a missing
required key (`item['title']`, `item['startHour']`, `item['duration']`,
`item['type']`) raises. -/
def processItem (uid : Nat) (item : Json) : Option StudyBlockRow :=
  match item with
  | Json.obj fields =>
    let date_val : Option Json :=
      match pyLookup fields "date".data with
      | some v => if truthy v then some v else none
      | none => none
    let day_idx := pyGetOpt fields "dayIndex".data
    let start_date_val := pyGetOpt fields "startDate".data
    let end_date_val := pyGetOpt fields "endDate".data
    match pyLookup fields "title".data, pyLookup fields "startHour".data,
        pyLookup fields "duration".data, pyLookup fields "type".data with
    | some t, some sh, some du, some ty =>
      some { id := 0, user := uid, title := t, day_index := day_idx,
             date := date_val, start_date := start_date_val,
             end_date := end_date_val, start_hour := sh, duration := du,
             block_type := ty }
    | _, _, _, _ => none
  | _ => none

/-- The whole loop: all items must process, in order. -/
def processItems (uid : Nat) : List Json → Option (List StudyBlockRow)
  | [] => some []
  | i :: rest =>
    match processItem uid i, processItems uid rest with
    | some b, some bs => some (b :: bs)
    | _, _ => none

/-- Python iteration over the parsed top-level value.  A JSON array
yields its items; an empty string or empty object iterates zero times;
any other value raises inside the loop or at the `for` itself
(`TypeError`/`AttributeError`), which the view's `except` turns into
the error response. -/
def iterItems : Json → Option (List Json)
  | Json.arr l => some l
  | Json.str [] => some []
  | Json.obj [] => some []
  | _ => none

/-- `navigator_command` from the model response text onward: clean the
fences, parse, build rows, bulk-insert.  Returns the command outcome
(`some blocks` = the HTTP 200 payload, `none` = the HTTP 500 error) and
the schedule store after the request. -/
def navigatorCommand (uid : Nat) (text : List Char)
    (store : List StudyBlockRow) :
    Option (List StudyBlockRow) × List StudyBlockRow :=
  match jsonParse (stripFences text) with
  | none => (none, store)
  | some schedule =>
    match iterItems schedule with
    | none => (none, store)
    | some items =>
      match processItems uid items with
      | none => (none, store)
      | some blocks => (some blocks, store ++ blocks)

/-- `startHour ∈ [0, 23.5]`, on the stored JSON value. -/
def hourOk : Json → Bool
  | Json.num d => Dec.le ⟨0, 0⟩ d && Dec.le d ⟨235, 1⟩
  | _ => false

/-- `duration > 0`, on the stored JSON value. -/
def durOk : Json → Bool
  | Json.num d => Dec.lt ⟨0, 0⟩ d
  | _ => false

/-- The Schedule Store invariant of the spec: `date` or `dayIndex` set,
`startHour ∈ [0, 23.5]`, `duration > 0`. -/
def blockInvariant (b : StudyBlockRow) : Bool :=
  (b.date.isSome || b.day_index.isSome) && hourOk b.start_hour && durOk b.duration

/-- An item is missing one of the four required fields (a non-object
item has no fields at all). -/
def missingRequired : Json → Bool
  | Json.obj fields =>
    (pyLookup fields "title".data).isNone
      || (pyLookup fields "startHour".data).isNone
      || (pyLookup fields "duration".data).isNone
      || (pyLookup fields "type".data).isNone
  | _ => true

example :
    (navigatorCommand 7 "[\x7b\"title\":\"T\",\"dayIndex\":4,\"startHour\":14,\"duration\":2,\"type\":\"fixed\"\x7d]".data []).2
    = [{ id := 0, user := 7, title := Json.str "T".data,
         day_index := some (Json.num ⟨4, 0⟩), date := none, start_date := none,
         end_date := none, start_hour := Json.num ⟨14, 0⟩,
         duration := Json.num ⟨2, 0⟩,
         block_type := Json.str "fixed".data }] := by rfl

example : navigatorCommand 7 "not json".data [] = (none, []) := by rfl

example :
    (navigatorCommand 7 "[\x7b\"title\":\"T\",\"startHour\":9,\"duration\":1,\"type\":\"ai\"\x7d]".data []).1.isSome
    = true := by rfl

/-! ## Presence tracker

`RoomParticipant` rows (`models.py` lines 13–18) and the presence logic
of `get_room_data` (`views.py` lines 48–72).  Times are rational
seconds; `now` is the time of the request. -/

/-- A `RoomParticipant` row. -/
structure Participant where
  room : Nat
  user : Nat
  last_active : ℚ
  is_active : Bool
  deriving DecidableEq

/-- The poll's own-presence touch (`views.py` lines 49–51): an SQL
`UPDATE` of every row matching `(user, room_id)` — it creates nothing. -/
def pollTouch (now : ℚ) (rid uid : Nat) (store : List Participant) :
    List Participant :=
  store.map fun p =>
    if p.user = uid ∧ p.room = rid then
      { p with last_active := now, is_active := true }
    else p

/-- The room-page touch (`views.py` lines 28–31): `get_or_create` on
`(room, user)`, then set `is_active`/`last_active`. -/
def visitTouch (now : ℚ) (rid uid : Nat) (store : List Participant) :
    List Participant :=
  if store.any fun p => p.room = rid && p.user = uid then
    pollTouch now rid uid store
  else
    store ++ [{ room := rid, user := uid, last_active := now, is_active := true }]

/-- The active-crew query (`views.py` lines 53–59): participants of the
room with `is_active` and `last_active ≥ now - 5 minutes`. -/
def roster (now : ℚ) (rid : Nat) (store : List Participant) :
    List Participant :=
  store.filter fun p => p.room == rid && p.is_active && now - 300 ≤ p.last_active

/-- The derived status (`views.py` lines 64–65). -/
def crewStatus (now : ℚ) (p : Participant) : String :=
  if now - p.last_active < 60 then "studying" else "idle"

/-! ## Message log -/

/-- A `RoomMessage` row (`models.py` lines 23–27). -/
structure RoomMessage where
  id : Nat
  room : Nat
  user : Nat
  content : List Char
  timestamp : ℚ
  deriving DecidableEq

/-- Timestamp order on messages (`order_by('timestamp')`). -/
def tsLe (a b : RoomMessage) : Prop := a.timestamp ≤ b.timestamp

instance : DecidableRel tsLe :=
  fun a b => inferInstanceAs (Decidable (a.timestamp ≤ b.timestamp))

instance : IsTotal RoomMessage tsLe := ⟨fun a b => le_total a.timestamp b.timestamp⟩

instance : IsTrans RoomMessage tsLe := ⟨fun _ _ _ h h' => le_trans h h'⟩

/-- The message poll (`views.py` lines 75–79): messages of the room
with `id > last_msg_id`, ordered by timestamp, first 50. -/
def pollMessages (rid sinceId : Nat) (msgs : List RoomMessage) :
    List RoomMessage :=
  (List.insertionSort tsLe
    (msgs.filter fun m => m.room == rid && sinceId < m.id)).take 50

/-! ## Block deletion, friends, user search -/

/-- `delete_study_block` (`views.py` lines 209–215):
`StudyBlock.objects.get(id=block_id, user=request.user)` then
`block.delete()`; `DoesNotExist` becomes the 404 response.  The delete
itself removes the fetched row by primary key. -/
def deleteStudyBlock (uid bid : Nat) (store : List StudyBlockRow) :
    Option Unit × List StudyBlockRow :=
  match store.find? fun b => b.id == bid && b.user == uid with
  | some _ => (some (), store.filter fun b => !(b.id == bid))
  | none => (none, store)

/-- Modelled from the spec: the `Friendship` model itself is imported
from `accounts.models` but its class is not in the source tree; the
spec describes it as a directed edge `(from_user, to_user)` with
get-or-create deduplication, which matches every use in
`study_session/views.py`. -/
structure Friendship where
  from_user : Nat
  to_user : Nat
  deriving DecidableEq

/-- `add_friend` (`views.py` lines 253–261): resolve the target user
(404 if absent), then `Friendship.objects.get_or_create`. -/
def addFriend (uid fid : Nat) (users : List Nat) (edges : List Friendship) :
    Option Unit × List Friendship :=
  if fid ∈ users then
    (some (),
      if edges.any fun e => e.from_user == uid && e.to_user == fid then edges
      else edges ++ [{ from_user := uid, to_user := fid }])
  else (none, edges)

/-- Number of friendship edges for an ordered pair. -/
def countEdges (uid fid : Nat) (edges : List Friendship) : Nat :=
  (edges.filter fun e => e.from_user == uid && e.to_user == fid).length

/-- A `User` row as the search endpoint sees it. -/
structure UserRec where
  id : Nat
  username : List Char
  deriving DecidableEq

/-- Case-folding for `icontains`. -/
def lowerL (s : List Char) : List Char := s.map Char.toLower

/-- Substring test: does `needle` occur contiguously in the haystack? -/
def hasSubstr (needle : List Char) : List Char → Bool
  | [] => needle.isEmpty
  | c :: rest => needle.isPrefixOf (c :: rest) || hasSubstr needle rest

/-- `search_users` (`views.py` lines 235–249): empty query short-cut,
case-insensitive substring match, exclusion of the caller, first 10. -/
def searchUsers (myId : Nat) (q : List Char) (users : List UserRec) :
    List UserRec :=
  if q.length < 1 then []
  else
    (users.filter fun u =>
      hasSubstr (lowerL q) (lowerL u.username) && !(u.id == myId)).take 10

example :
    searchUsers 1 "b".data [⟨1, "Bob".data⟩, ⟨2, "ABBA".data⟩]
    = [⟨2, "ABBA".data⟩] := by decide

example :
    pollMessages 1 0 [⟨1, 1, 5, "hi".data, 10⟩] = [⟨1, 1, 5, "hi".data, 10⟩] := by rfl

/-! ## Theorems -/

/-- Claim C5: for every room and participant-set state, the roster of a
poll contains exactly the participants of that room whose `is_active`
flag is true and whose `last_active` is at least `now` minus the
5-minute freshness window; nobody older ever appears. -/
theorem roster_exactly_fresh_active (now : ℚ) (rid : Nat)
    (store : List Participant) (p : Participant) :
    p ∈ roster now rid store ↔
      p ∈ store ∧ p.room = rid ∧ p.is_active = true ∧
        now - 300 ≤ p.last_active := by
  simp [roster, List.mem_filter, and_assoc]

/-- Claim C6: every participant in the roster reports `"studying"`
exactly when `now - last_active < 60`, and `"idle"` otherwise. -/
theorem crewStatus_studying_iff (now : ℚ) (rid : Nat)
    (store : List Participant) (p : Participant)
    (hp : p ∈ roster now rid store) :
    (crewStatus now p = "studying" ↔ now - p.last_active < 60) ∧
    (crewStatus now p = "idle" ↔ ¬ now - p.last_active < 60) := by
  by_cases h : now - p.last_active < 60 <;> simp [crewStatus, h]

/-- Witness for C6: a participant last touched 90 seconds ago (member
of the roster, since 90 s is within the 5-minute window) reports
`"idle"`; one touched 10 seconds ago reports `"studying"`. -/
theorem crewStatus_studying_iff_witness :
    crewStatus 90 ⟨1, 1, 0, true⟩ = "idle" ∧
    crewStatus 90 ⟨1, 1, 80, true⟩ = "studying" := by
  constructor
  · exact (crewStatus_studying_iff 90 1 [⟨1, 1, 0, true⟩] ⟨1, 1, 0, true⟩
      (by simp [roster]; norm_num)).2.mpr (by norm_num)
  · exact (crewStatus_studying_iff 90 1 [⟨1, 1, 80, true⟩] ⟨1, 1, 80, true⟩
      (by simp [roster]; norm_num)).1.mpr (by norm_num)

/-- Counterexample to claim C3 as stated: a poll by a user with no
prior participant record creates nothing — after `pollTouch` on an
empty participant table there is still no record for the pair. -/
theorem pollTouch_no_creation_cex :
    ¬ ∃ p ∈ pollTouch 0 1 1 [], p.room = 1 ∧ p.user = 1 := by
  simp [pollTouch]

/-- Claim C3 as amended: the poll's presence touch updates every
existing participant record of the pair (setting `last_active := now`
and `is_active := true`) but creates none; with no prior record the
table is unchanged. -/
theorem pollTouch_update_or_nothing (now : ℚ) (rid uid : Nat)
    (store : List Participant) :
    ((∀ p ∈ store, ¬(p.user = uid ∧ p.room = rid)) →
        pollTouch now rid uid store = store) ∧
    (∀ p ∈ store, p.user = uid → p.room = rid →
        ({ p with last_active := now, is_active := true } : Participant) ∈
          pollTouch now rid uid store) ∧
    (∀ q ∈ pollTouch now rid uid store, q.user = uid → q.room = rid →
        q.last_active = now ∧ q.is_active = true) := by
  refine ⟨fun hnone => ?_, fun p hp hu hr => ?_, fun q hq hu hr => ?_⟩
  · rw [show pollTouch now rid uid store = store.map id from
      List.map_congr_left fun p hp => by
        simp [if_neg (hnone p hp)]]
    exact List.map_id store
  · exact List.mem_map.mpr ⟨p, hp, by simp [hu, hr]⟩
  · rcases List.mem_map.mp hq with ⟨p, hp, hfq⟩
    by_cases hc : p.user = uid ∧ p.room = rid
    · rw [if_pos hc] at hfq
      rw [← hfq]
      exact ⟨rfl, rfl⟩
    · rw [if_neg hc] at hfq
      exact absurd ⟨hfq ▸ hu, hfq ▸ hr⟩ hc

/-- Witness for C3 (amended): touching the pair `(room 1, user 1)` at
time 5 updates its stale record in place. -/
theorem pollTouch_update_or_nothing_witness :
    ({ room := 1, user := 1, last_active := 5, is_active := true } : Participant) ∈
      pollTouch 5 1 1 [⟨1, 1, 0, false⟩] :=
  (pollTouch_update_or_nothing 5 1 1 [⟨1, 1, 0, false⟩]).2.1
    ⟨1, 1, 0, false⟩ (List.mem_singleton.mpr rfl) rfl rfl

/-- Claim C10: the user-search result never contains the calling user,
regardless of the query and of the user table. -/
theorem searchUsers_excludes_self (myId : Nat) (q : List Char)
    (users : List UserRec) (u : UserRec)
    (hu : u ∈ searchUsers myId q users) : u.id ≠ myId := by
  unfold searchUsers at hu
  split at hu
  · simp at hu
  · have hf := List.mem_filter.mp (List.take_subset _ _ hu)
    have := hf.2
    simp only [Bool.and_eq_true, Bool.not_eq_true', beq_eq_false_iff_ne] at this
    exact this.2

/-- Witness for C10: a search by user 1 that matches the other user
returns a record with an id different from 1. -/
theorem searchUsers_excludes_self_witness :
    (⟨2, "ABBA".data⟩ : UserRec).id ≠ 1 :=
  searchUsers_excludes_self 1 "b".data [⟨1, "Bob".data⟩, ⟨2, "ABBA".data⟩]
    ⟨2, "ABBA".data⟩ (by decide)

/-- Claim C8: deleting a block answers 404 (leaving the store intact)
whenever no block with that id is owned by the caller — covering both
the missing-id and the foreign-owner case — and succeeds only when the
caller owns the block. -/
theorem deleteStudyBlock_ownership (uid bid : Nat)
    (store : List StudyBlockRow) :
    ((∀ b ∈ store, ¬(b.id = bid ∧ b.user = uid)) →
        deleteStudyBlock uid bid store = (none, store)) ∧
    ((deleteStudyBlock uid bid store).1.isSome = true →
        ∃ b ∈ store, b.id = bid ∧ b.user = uid) := by
  unfold deleteStudyBlock
  cases hf : store.find? fun b => b.id == bid && b.user == uid with
  | none => exact ⟨fun _ => rfl, by simp⟩
  | some b =>
    have hb : b ∈ store := List.mem_of_find?_eq_some hf
    have hpb := List.find?_some hf
    simp only [Bool.and_eq_true, beq_iff_eq] at hpb
    exact ⟨fun hnone => absurd hpb (hnone b hb), fun _ => ⟨b, hb, hpb⟩⟩

/-- Witness for C8: user 1 asking to delete block 5, which is owned by
user 2, gets the 404 and the store is unchanged. -/
theorem deleteStudyBlock_ownership_witness :
    deleteStudyBlock 1 5
      [{ id := 5, user := 2, title := Json.null, day_index := none,
         date := none, start_date := none, end_date := none,
         start_hour := Json.null, duration := Json.null,
         block_type := Json.null }] =
    (none,
      [{ id := 5, user := 2, title := Json.null, day_index := none,
         date := none, start_date := none, end_date := none,
         start_hour := Json.null, duration := Json.null,
         block_type := Json.null }]) :=
  (deleteStudyBlock_ownership 1 5 _).1 (by
    intro b hb
    rw [List.mem_singleton.mp hb]
    decide)

/-- Claim C9: adding a friend is idempotent — from any deduplicated
edge state, two identical `add` calls leave exactly one edge for the
pair — and a target id that resolves to no user yields 404 with no edge
created. -/
theorem addFriend_idempotent (uid fid : Nat) (users : List Nat)
    (edges : List Friendship) :
    (fid ∈ users → countEdges uid fid edges ≤ 1 →
      countEdges uid fid
        (addFriend uid fid users (addFriend uid fid users edges).2).2 = 1) ∧
    (fid ∉ users → addFriend uid fid users edges = (none, edges)) := by
  have hzero : ∀ es : List Friendship,
      (es.any fun e => e.from_user == uid && e.to_user == fid) = false →
      countEdges uid fid es = 0 := by
    intro es hany
    simp only [List.any_eq_false] at hany
    simp only [countEdges, List.length_eq_zero, List.filter_eq_nil_iff]
    exact hany
  have hpos : ∀ es : List Friendship,
      (es.any fun e => e.from_user == uid && e.to_user == fid) = true →
      1 ≤ countEdges uid fid es := by
    intro es hany
    rcases List.any_eq_true.mp hany with ⟨e, he, hpe⟩
    have hmem : e ∈ es.filter fun e => e.from_user == uid && e.to_user == fid :=
      List.mem_filter.mpr ⟨he, hpe⟩
    exact List.length_pos.mpr (List.ne_nil_of_mem hmem)
  constructor
  · intro hin hle
    cases h1 : edges.any fun e => e.from_user == uid && e.to_user == fid with
    | true =>
      have hsnd : (addFriend uid fid users edges).2 = edges := by
        simp [addFriend, hin, h1]
      rw [hsnd]
      simp only [addFriend, if_pos hin, h1, if_true]
      exact le_antisymm (by simpa using hle) (hpos edges h1)
    | false =>
      have hsnd : (addFriend uid fid users edges).2 =
          edges ++ [{ from_user := uid, to_user := fid }] := by
        simp [addFriend, hin, h1]
      rw [hsnd]
      have hany2 : ((edges ++ [({ from_user := uid, to_user := fid } : Friendship)]).any
          fun e => e.from_user == uid && e.to_user == fid) = true :=
        List.any_eq_true.mpr ⟨⟨uid, fid⟩,
          List.mem_append_right _ (List.mem_singleton.mpr rfl), by simp⟩
      simp only [addFriend, if_pos hin, hany2, if_true]
      have h0 := hzero edges h1
      simp only [countEdges] at h0
      simp only [countEdges, List.filter_append]
      simp [List.length_eq_zero.mp h0]
  · intro hnotin
    simp [addFriend, hnotin]

/-- Witness for C9: with the user table `[2]` and no prior edges,
adding friend 2 twice as user 1 leaves exactly one `1 → 2` edge. -/
theorem addFriend_idempotent_witness :
    countEdges 1 2 (addFriend 1 2 [2] (addFriend 1 2 [2] []).2).2 = 1 :=
  (addFriend_idempotent 1 2 [2] []).1 (by decide) (by decide)

/-- An item missing one of the four required keys makes its loop
iteration raise. -/
theorem processItem_none_of_missing (uid : Nat) (i : Json)
    (h : missingRequired i = true) : processItem uid i = none := by
  cases i with
  | obj fields =>
    simp only [missingRequired] at h
    unfold processItem
    cases ht : pyLookup fields "title".data <;>
      cases hs : pyLookup fields "startHour".data <;>
        cases hd : pyLookup fields "duration".data <;>
          cases hy : pyLookup fields "type".data <;>
            simp_all
  | null => rfl
  | bool b => rfl
  | num d => rfl
  | str s => rfl
  | arr l => rfl

/-- If any loop iteration raises, the whole loop raises. -/
theorem processItems_none_of_mem (uid : Nat) {items : List Json} {i : Json}
    (hi : i ∈ items) (h : processItem uid i = none) :
    processItems uid items = none := by
  induction items with
  | nil => cases hi
  | cons a rest ih =>
    rcases List.mem_cons.mp hi with rfl | hmem
    · simp [processItems, h]
    · cases hpa : processItem uid a <;> simp [processItems, hpa, ih hmem]

/-- Claim C1: an unparsable planner response, or any parsed item
missing a required field, fails the command; and for every response
text the outcome is all-or-nothing — an error persists no blocks and a
success persists exactly the parsed blocks. -/
theorem navigatorCommand_all_or_nothing (uid : Nat) (text : List Char)
    (store : List StudyBlockRow) :
    ((navigatorCommand uid text store).1 = none →
        (navigatorCommand uid text store).2 = store) ∧
    (jsonParse (stripFences text) = none →
        (navigatorCommand uid text store).1 = none) ∧
    (∀ schedule items i, jsonParse (stripFences text) = some schedule →
        iterItems schedule = some items → i ∈ items →
        missingRequired i = true →
        (navigatorCommand uid text store).1 = none) ∧
    (∀ blocks, (navigatorCommand uid text store).1 = some blocks →
        (navigatorCommand uid text store).2 = store ++ blocks) := by
  cases hp : jsonParse (stripFences text) with
  | none =>
    have hres : navigatorCommand uid text store = (none, store) := by
      simp only [navigatorCommand, hp]
    rw [hres]
    exact ⟨fun _ => rfl, fun _ => rfl, fun s its i h1 h2 hi hm => rfl,
      fun blocks h => by simp at h⟩
  | some schedule =>
    cases hit : iterItems schedule with
    | none =>
      have hres : navigatorCommand uid text store = (none, store) := by
        simp only [navigatorCommand, hp, hit]
      rw [hres]
      exact ⟨fun _ => rfl, fun _ => rfl, fun s its i h1 h2 hi hm => rfl,
        fun blocks h => by simp at h⟩
    | some items =>
      cases hpi : processItems uid items with
      | none =>
        have hres : navigatorCommand uid text store = (none, store) := by
          simp only [navigatorCommand, hp, hit, hpi]
        rw [hres]
        exact ⟨fun _ => rfl, fun _ => rfl, fun s its i h1 h2 hi hm => rfl,
          fun blocks h => by simp at h⟩
      | some blocks =>
        have hres : navigatorCommand uid text store
            = (some blocks, store ++ blocks) := by
          simp only [navigatorCommand, hp, hit, hpi]
        rw [hres]
        refine ⟨fun h => by simp at h, fun h => by simp at h,
          fun s its i h1 h2 hi hmiss => ?_, fun bl h => ?_⟩
        · cases h1
          rw [hit] at h2
          cases h2
          rw [processItems_none_of_mem uid hi
            (processItem_none_of_missing uid i hmiss)] at hpi
          cases hpi
        · obtain rfl : blocks = bl := by simpa using h
          rfl

/-- Witness for C1: an unparsable response (`not json`) leaves an empty
store empty and surfaces the error. -/
theorem navigatorCommand_all_or_nothing_witness :
    (navigatorCommand 3 "not json".data []).2 = [] ∧
    (navigatorCommand 3 "not json".data []).1 = none := by
  refine ⟨(navigatorCommand_all_or_nothing 3 "not json".data []).1 ?h, ?h⟩
  exact (navigatorCommand_all_or_nothing 3 "not json".data []).2.1 (by rfl)

/-- A planner response item carrying all four required fields but
neither a `date` nor a `dayIndex`. -/
def c2text : List Char :=
  "[\x7b\"title\":\"X\",\"startHour\":9,\"duration\":1,\"type\":\"ai\"\x7d]".data

/-- Counterexample to claim C2 as stated: the planner persists the
`c2text` block — the command succeeds — yet the persisted block has
both `date` and `dayIndex` null, violating the store invariant.  The
code validates nothing. -/
theorem planner_invariant_cex :
    (navigatorCommand 0 c2text []).1.isSome = true ∧
    ¬ (∀ b ∈ (navigatorCommand 0 c2text []).2, blockInvariant b = true) := by
  refine ⟨rfl, fun hall => ?_⟩
  have hb := hall
    { id := 0, user := 0, title := Json.str "X".data, day_index := none,
      date := none, start_date := none, end_date := none,
      start_hour := Json.num ⟨9, 0⟩, duration := Json.num ⟨1, 0⟩,
      block_type := Json.str "ai".data }
    (by rw [show (navigatorCommand 0 c2text []).2 = [_] from rfl]
        exact List.mem_singleton.mpr rfl)
  rw [show blockInvariant
    { id := 0, user := 0, title := Json.str "X".data, day_index := none,
      date := none, start_date := none, end_date := none,
      start_hour := Json.num ⟨9, 0⟩, duration := Json.num ⟨1, 0⟩,
      block_type := Json.str "ai".data } = false from rfl] at hb
  cases hb

/-- The store invariant evaluated directly on a response item's raw
fields, with the code's extraction semantics (truthiness for `date`,
null-normalisation for `dayIndex`). -/
def itemFieldsInvariant (fields : List (List Char × Json)) : Bool :=
  ((match pyLookup fields "date".data with
    | some v => if truthy v then some v else none
    | none => none).isSome || (pyGetOpt fields "dayIndex".data).isSome)
  && (match pyLookup fields "startHour".data with
      | some j => hourOk j
      | none => false)
  && (match pyLookup fields "duration".data with
      | some j => durOk j
      | none => false)

/-- Claim C2 as amended: the planner enforces nothing — a persisted
block carries exactly the values extracted from its response item
(required fields as looked up, `date` only when truthy, the rest
null-normalised), so it satisfies the store invariant exactly when the
raw item fields do. -/
theorem processItem_passthrough (uid : Nat)
    (fields : List (List Char × Json)) (b : StudyBlockRow)
    (h : processItem uid (Json.obj fields) = some b) :
    b.user = uid ∧
    pyLookup fields "title".data = some b.title ∧
    pyLookup fields "startHour".data = some b.start_hour ∧
    pyLookup fields "duration".data = some b.duration ∧
    pyLookup fields "type".data = some b.block_type ∧
    b.day_index = pyGetOpt fields "dayIndex".data ∧
    b.start_date = pyGetOpt fields "startDate".data ∧
    b.end_date = pyGetOpt fields "endDate".data ∧
    b.date = (match pyLookup fields "date".data with
      | some v => if truthy v then some v else none
      | none => none) ∧
    blockInvariant b = itemFieldsInvariant fields := by
  cases ht : pyLookup fields "title".data with
  | none => simp [processItem, ht] at h
  | some t =>
    cases hs : pyLookup fields "startHour".data with
    | none => simp [processItem, ht, hs] at h
    | some sh =>
      cases hd : pyLookup fields "duration".data with
      | none => simp [processItem, ht, hs, hd] at h
      | some du =>
        cases hy : pyLookup fields "type".data with
        | none => simp [processItem, ht, hs, hd, hy] at h
        | some ty =>
          simp only [processItem, ht, hs, hd, hy, Option.some.injEq] at h
          subst h
          refine ⟨rfl, by rfl, rfl, by rfl, rfl, by rfl, rfl, by rfl, rfl, ?_⟩
          simp [blockInvariant, itemFieldsInvariant, hs, hd]

/-- A concrete well-formed response item, used to exercise the
pass-through theorem. -/
def c2fields : List (List Char × Json) :=
  [("title".data, Json.str "X".data), ("dayIndex".data, Json.num ⟨4, 0⟩),
   ("startHour".data, Json.num ⟨9, 0⟩), ("duration".data, Json.num ⟨1, 0⟩),
   ("type".data, Json.str "ai".data)]

/-- The row the planner builds from `c2fields`. -/
def c2row : StudyBlockRow :=
  { id := 0, user := 0, title := Json.str "X".data,
    day_index := some (Json.num ⟨4, 0⟩), date := none, start_date := none,
    end_date := none, start_hour := Json.num ⟨9, 0⟩,
    duration := Json.num ⟨1, 0⟩, block_type := Json.str "ai".data }

/-- Witness for C2 (amended): on the concrete item `c2fields` the
planner's block carries the looked-up title and satisfies the invariant
exactly as the raw fields do. -/
theorem processItem_passthrough_witness :
    pyLookup c2fields "title".data = some c2row.title ∧
    blockInvariant c2row = itemFieldsInvariant c2fields := by
  have hpass := processItem_passthrough 0 c2fields c2row (by rfl)
  exact ⟨hpass.2.1, hpass.2.2.2.2.2.2.2.2.2⟩

/-- Claim C7: the message poll returns only messages of the room with
id above the watermark, in ascending timestamp order, at most 50 of
them; it returns all of them (as a permutation) when at most 50 are
pending, and when more are pending everything returned is at least as
old as everything pending but not returned. -/
theorem pollMessages_spec (rid sinceId : Nat) (msgs : List RoomMessage) :
    (∀ m ∈ pollMessages rid sinceId msgs,
        m ∈ msgs ∧ m.room = rid ∧ sinceId < m.id) ∧
    List.Sorted tsLe (pollMessages rid sinceId msgs) ∧
    (pollMessages rid sinceId msgs).length ≤ 50 ∧
    ((msgs.filter fun m => m.room == rid && sinceId < m.id).length ≤ 50 →
      (pollMessages rid sinceId msgs).Perm
        (msgs.filter fun m => m.room == rid && sinceId < m.id)) ∧
    (∀ a ∈ pollMessages rid sinceId msgs,
      ∀ b ∈ msgs.filter fun m => m.room == rid && sinceId < m.id,
        b ∉ pollMessages rid sinceId msgs → tsLe a b) := by
  have hperm := List.perm_insertionSort tsLe
    (msgs.filter fun m => m.room == rid && sinceId < m.id)
  have hsorted := List.sorted_insertionSort tsLe
    (msgs.filter fun m => m.room == rid && sinceId < m.id)
  refine ⟨fun m hm => ?_, ?_, ?_, fun hlen => ?_, fun a ha b hb hnb => ?_⟩
  · simp only [pollMessages] at hm
    have hmL := List.take_subset 50 _ hm
    have hmp := hperm.mem_iff.mp hmL
    have hf := List.mem_filter.mp hmp
    have hpred := hf.2
    simp only [Bool.and_eq_true, beq_iff_eq, decide_eq_true_eq] at hpred
    exact ⟨hf.1, hpred.1, hpred.2⟩
  · exact List.Pairwise.sublist (List.take_sublist 50 _) hsorted
  · simp only [pollMessages]
    exact List.length_take_le 50 _
  · simp only [pollMessages]
    have hL : (List.insertionSort tsLe
        (msgs.filter fun m => m.room == rid && sinceId < m.id)).length ≤ 50 := by
      rw [hperm.length_eq]
      exact hlen
    rw [List.take_of_length_le hL]
    exact hperm
  · simp only [pollMessages] at ha hnb
    have hbL : b ∈ List.insertionSort tsLe
        (msgs.filter fun m => m.room == rid && sinceId < m.id) :=
      hperm.mem_iff.mpr hb
    have hpair := List.pairwise_append.mp (by
      rw [List.take_append_drop 50 (List.insertionSort tsLe
        (msgs.filter fun m => m.room == rid && sinceId < m.id))]
      exact hsorted)
    rcases List.mem_append.mp (by
        rw [List.take_append_drop 50 (List.insertionSort tsLe
          (msgs.filter fun m => m.room == rid && sinceId < m.id))]
        exact hbL) with hbt | hbd
    · exact absurd hbt hnb
    · exact hpair.2.2 a ha b hbd

/-- Witness for C7: polling room 1 above watermark 0 on a one-message
table returns that message, which belongs to the room and beats the
watermark. -/
theorem pollMessages_spec_witness :
    (⟨1, 1, 5, "hi".data, 10⟩ : RoomMessage) ∈ [(⟨1, 1, 5, "hi".data, 10⟩ : RoomMessage)] ∧
    (⟨1, 1, 5, "hi".data, 10⟩ : RoomMessage).room = 1 ∧
    0 < (⟨1, 1, 5, "hi".data, 10⟩ : RoomMessage).id :=
  (pollMessages_spec 1 0 [⟨1, 1, 5, "hi".data, 10⟩]).1 ⟨1, 1, 5, "hi".data, 10⟩
    (by rw [show pollMessages 1 0 [⟨1, 1, 5, "hi".data, 10⟩]
          = [⟨1, 1, 5, "hi".data, 10⟩] from rfl]
        exact List.mem_singleton.mpr rfl)

/-! ## Fence wrapping (claim C4) -/

/-- A response wrapped in a `json`-tagged markdown fence, as in the
spec's example ` ```json\n[...]\n``` `. -/
def wrapJsonFence (t : List Char) : List Char :=
  "```json\n".data ++ (t ++ "\n```".data)

/-- A response wrapped in a bare markdown fence. -/
def wrapBareFence (t : List Char) : List Char :=
  "```\n".data ++ (t ++ "\n```".data)

theorem isPrefixOf_append_self (l r : List Char) : l.isPrefixOf (l ++ r) = true :=
  List.isPrefixOf_iff_prefix.mpr (List.prefix_append l r)

theorem isSuffixOf_append_self (l r : List Char) : r.isSuffixOf (l ++ r) = true := by
  simp only [List.isSuffixOf, List.reverse_append]
  exact isPrefixOf_append_self _ _

theorem take_sub_append_fence (x : List Char) :
    (x ++ fenceMark).take ((x ++ fenceMark).length - 3) = x := by
  have h3 : fenceMark.length = 3 := rfl
  rw [List.length_append, h3, Nat.add_sub_cancel, List.take_left]

/-- The fence clean-up of a `json`-tagged wrapped text leaves the
payload padded with the two newlines of the wrapping. -/
theorem stripFences_wrapJsonFence (t : List Char) :
    stripFences (wrapJsonFence t) = '\n' :: (t ++ ['\n']) := by
  simp only [stripFences, wrapJsonFence]
  have hc : fenceMarkJson.isPrefixOf
      ("```json\n".data ++ (t ++ "\n```".data)) = true := rfl
  rw [if_pos hc]
  have hdrop : ("```json\n".data ++ (t ++ "\n```".data)).drop 7
      = '\n' :: (t ++ "\n```".data) := rfl
  rw [hdrop]
  have hx : '\n' :: (t ++ "\n```".data) = ('\n' :: (t ++ ['\n'])) ++ fenceMark := by
    simp [fenceMark]
  rw [hx, if_pos (isSuffixOf_append_self _ _), take_sub_append_fence]

/-- The fence clean-up of a bare-fence wrapped text leaves the payload
padded with the two newlines of the wrapping. -/
theorem stripFences_wrapBareFence (t : List Char) :
    stripFences (wrapBareFence t) = '\n' :: (t ++ ['\n']) := by
  simp only [stripFences, wrapBareFence]
  have hcj : fenceMarkJson.isPrefixOf
      ("```\n".data ++ (t ++ "\n```".data)) = false := rfl
  have hc : fenceMark.isPrefixOf
      ("```\n".data ++ (t ++ "\n```".data)) = true := rfl
  rw [hcj]
  simp only [Bool.false_eq_true, if_false]
  rw [if_pos hc]
  have hdrop : ("```\n".data ++ (t ++ "\n```".data)).drop 3
      = '\n' :: (t ++ "\n```".data) := rfl
  rw [hdrop]
  have hx : '\n' :: (t ++ "\n```".data) = ('\n' :: (t ++ ['\n'])) ++ fenceMark := by
    simp [fenceMark]
  rw [hx, if_pos (isSuffixOf_append_self _ _), take_sub_append_fence]

/-- Trimming ignores the newline padding the wrapping leaves behind. -/
theorem trimWs_pad (t : List Char) :
    trimWs ('\n' :: (t ++ ['\n'])) = trimWs t := by
  unfold trimWs
  congr 1
  have h1 : ('\n' :: (t ++ ['\n'])).dropWhile isWs
      = (t ++ ['\n']).dropWhile isWs := by
    rw [List.dropWhile_cons, if_pos (show isWs '\n' = true from rfl)]
  rw [h1, List.dropWhile_append]
  by_cases h2 : (t.dropWhile isWs).isEmpty
  · rw [if_pos h2]
    have h3 : t.dropWhile isWs = [] := by
      simpa using h2
    rw [h3]
    rfl
  · rw [if_neg h2]
    rw [List.reverse_append]
    simp only [List.reverse_cons, List.reverse_nil, List.nil_append,
      List.singleton_append]
    rw [List.dropWhile_cons, if_pos (show isWs '\n' = true from rfl)]

/-- Parsing ignores the newline padding the wrapping leaves behind. -/
theorem jsonParse_pad (t : List Char) :
    jsonParse ('\n' :: (t ++ ['\n'])) = jsonParse t := by
  simp only [jsonParse, trimWs_pad]

/-- The planner response that refutes claim C4 as stated: its stray
trailing fence is stripped when the text is unwrapped but survives
(mid-text) when the text is wrapped. -/
def c4text : List Char := "[]```".data

/-- Counterexample to claim C4 as stated: for the response `[]```+ ` the
unwrapped command succeeds with an empty schedule while the fenced
command fails to parse — fenced and unfenced are not always identical. -/
theorem fence_wrap_cex :
    navigatorCommand 0 (wrapJsonFence c4text) [] ≠ navigatorCommand 0 c4text [] := by
  intro h
  rw [show navigatorCommand 0 (wrapJsonFence c4text) [] = (none, []) from rfl,
    show navigatorCommand 0 c4text [] = (some [], []) from rfl] at h
  simp at h

/-- Claim C4 as amended: for every response text that neither starts
nor ends with a triple-backtick marker, wrapping it in leading/trailing
fences (tagged `json` or bare) yields exactly the same command outcome
and the same persisted schedule as the unwrapped text. -/
theorem fence_wrap_invariant (uid : Nat) (store : List StudyBlockRow)
    (t : List Char) (h1 : fenceMark.isPrefixOf t = false)
    (h2 : fenceMark.isSuffixOf t = false) :
    navigatorCommand uid (wrapJsonFence t) store = navigatorCommand uid t store ∧
    navigatorCommand uid (wrapBareFence t) store = navigatorCommand uid t store := by
  have hjson : fenceMarkJson.isPrefixOf t = false := by
    cases hj : fenceMarkJson.isPrefixOf t with
    | false => rfl
    | true =>
      have hm : fenceMark.isPrefixOf t = true :=
        List.isPrefixOf_iff_prefix.mpr
          ((show fenceMark <+: fenceMarkJson by decide).trans
            (List.isPrefixOf_iff_prefix.mp hj))
      rw [hm] at h1
      cases h1
  have hstrip : stripFences t = t := by
    simp [stripFences, hjson, h1, h2]
  constructor
  · simp only [navigatorCommand, stripFences_wrapJsonFence, jsonParse_pad, hstrip]
  · simp only [navigatorCommand, stripFences_wrapBareFence, jsonParse_pad, hstrip]

/-- Witness for C4 (amended): the fenced and unfenced empty-array
responses produce identical outcomes. -/
theorem fence_wrap_invariant_witness :
    navigatorCommand 0 (wrapJsonFence "[]".data) [] = navigatorCommand 0 "[]".data [] :=
  (fence_wrap_invariant 0 [] "[]".data (by rfl) (by rfl)).1

end StudySession
